import Mathlib

/-!
Shallow embedding of the "vibe-coding-app" playground core (src/src/App.js):
the document model (a flat list of `{ name, type, code }` records plus a
single active index), the preview compositor `buildSrcDoc`, the debounced
render scheduling, the localStorage persistence shim, and the zip
import/export boundary.  Braces, apostrophes and other characters that
appear in the JS string templates are written with `\x7b`, `\x7d`, `\x27`
escapes.
-/

namespace VibeApp

/-- A source file record, mirroring the JS object shape `{ name, type, code }`
used by the later (flat-list) variant of `App` in src/src/App.js. -/
structure SourceFile where
  name : String
  type : String
  code : String
deriving DecidableEq, Repr

/-- A file record of the earlier tabbed variant (`{ name, language, code }`,
src/src/App.js lines 12-17). -/
structure TabFile where
  name : String
  language : String
  code : String
deriving DecidableEq, Repr

/-- One entry of the `LANGUAGES` template table (src/src/App.js lines 646-652);
the `icon` field is presentation-only and omitted. -/
structure Language where
  type : String
  label : String
  ext : String
  sample : String
deriving DecidableEq, Repr

/-- The `LANGUAGES` table (src/src/App.js lines 646-652). -/
def LANGUAGES : List Language :=
  [ { type := "html", label := "HTML", ext := ".html", sample := "<h1>Hello, Vibe!</h1>" },
    { type := "css", label := "CSS", ext := ".css", sample := "h1 \x7b color: #0099ff; \x7d" },
    { type := "js", label := "JS", ext := ".js", sample := "console.log(\x27Hello, JS!\x27)" },
    { type := "py", label := "Python", ext := ".py", sample := "print(\x27Hello, Python!\x27)" },
    { type := "md", label := "Markdown", ext := ".md", sample := "# Hello, Markdown!" } ]

/-- `DEFAULT_FILES` (src/src/App.js lines 667-671). -/
def DEFAULT_FILES : List SourceFile :=
  [ { name := "index.html", type := "html", code := "<h1>Hello, Vibe!</h1>" },
    { name := "style.css", type := "css", code := "h1 \x7b color: #0099ff; \x7d" },
    { name := "main.js", type := "js", code := "console.log(\x27Hello, JS!\x27)" } ]

/-- JS `String.prototype.toLowerCase()` on the ASCII strings this app lowercases
(language labels and file extensions): per-character `Char.toLower`. -/
def toLowerStr (s : String) : String := String.mk (s.data.map Char.toLower)

/-- `addFile(type)` (src/src/App.js lines 770-776).  Returns the new file list
together with the new `activeFileIdx` (`files.length`, the index of the
appended file).  When `type` is not in `LANGUAGES` the JS code would throw on
`base.label`, modelled as `none`. -/
def addFile (type : String) (files : List SourceFile) : Option (List SourceFile × Nat) :=
  match LANGUAGES.find? (fun l => l.type == type) with
  | none => none
  | some base =>
    let num := (files.filter (fun f => f.type == type)).length + 1
    let name := toLowerStr base.label ++ (if num > 1 then Nat.repr num else "") ++ base.ext
    some (files ++ [{ name := name, type := type, code := base.sample }], files.length)

/-- `removeFile(idx)` (src/src/App.js lines 777-781): a no-op when the whole
list has exactly one file; otherwise removes the file at `idx`
(`files.filter((_, i) => i !== idx)`, i.e. `List.eraseIdx`, which also agrees
with the JS filter for out-of-range `idx`) and resets `activeFileIdx` to 0. -/
def removeFile (idx : Nat) (files : List SourceFile) (activeFileIdx : Nat) :
    List SourceFile × Nat :=
  if files.length = 1 then (files, activeFileIdx)
  else (files.eraseIdx idx, 0)

/-- `renameFile(idx, newName)` (src/src/App.js lines 782-784):
`files.map((f, i) => i === idx ? { ...f, name: newName } : f)`. -/
def renameFile (idx : Nat) (newName : String) (files : List SourceFile) : List SourceFile :=
  files.mapIdx (fun i f => if i = idx then { f with name := newName } else f)

/-- The Monaco `onChange` content update (src/src/App.js lines 1084-1086):
`files.map((f, i) => i === idx ? { ...f, code } : f)` at the active index. -/
def setContent (idx : Nat) (code : String) (files : List SourceFile) : List SourceFile :=
  files.mapIdx (fun i f => if i = idx then { f with code := code } else f)

/-- `removeHtmlFile(i)` of the tabbed variant (src/src/App.js line 188):
`files.length === 1 ? files : files.filter((_, idx) => idx !== i)`.  Here each
kind lives in its own list, so the length guard is a per-kind guard. -/
def removeHtmlFile (i : Nat) (files : List TabFile) : List TabFile :=
  if files.length = 1 then files else files.eraseIdx i

/-- The style-block payload of `buildSrcDoc` (src/src/App.js line 789), which
is also the spec's §4.2 description of the style part of `compose`: every
`css`-kind file's content, separated by newlines, in FileSet order. -/
def composeStyles (files : List SourceFile) : String :=
  String.intercalate "\n" ((files.filter (fun f => f.type == "css")).map (fun f => f.code))

/-- The body payload of `buildSrcDoc` (src/src/App.js line 788): every
`html`-kind file's content, newline-separated, in FileSet order. -/
def composeMarkup (files : List SourceFile) : String :=
  String.intercalate "\n" ((files.filter (fun f => f.type == "html")).map (fun f => f.code))

/-- The script payload of `buildSrcDoc` (src/src/App.js line 790): every
`js`-kind file's content, newline-separated, in FileSet order. -/
def composeScripts (files : List SourceFile) : String :=
  String.intercalate "\n" ((files.filter (fun f => f.type == "js")).map (fun f => f.code))

/-- The constant head of the `buildSrcDoc` template, up to and including the
opening `<style>` tag (src/src/App.js lines 791-795). -/
def docPart1 : String :=
  "\n      <!DOCTYPE html>\n      <html lang=\"en\"><head>\n        <meta charset=\"UTF-8\"><title>Preview</title>\n        <style>"

/-- The constant template segment between the style payload and the body
payload (src/src/App.js lines 795-797). -/
def docPart2 : String := "</style>\n      </head><body>\n        "

/-- The constant template segment between the body payload and the script
payload, opening the guarded script block (src/src/App.js lines 797-799). -/
def docPart3 : String := "\n        <script>\n        try \x7b "

/-- The constant tail of the template: the catch clause that appends a visible
error message to the body, and the closing tags (src/src/App.js lines 799-803). -/
def docPart4 : String :=
  " \x7d\n        catch(e) \x7b document.body.innerHTML += \"<pre style=\x27color:red\x27>\" + e + \"</pre>\"; \x7d\n        <" ++ "/script>\n      </body></html>\n    "

/-- `buildSrcDoc()` of the flat-list variant (src/src/App.js lines 787-804). -/
def buildSrcDoc (files : List SourceFile) : String :=
  docPart1 ++ composeStyles files ++ docPart2 ++ composeMarkup files ++ docPart3 ++
    composeScripts files ++ docPart4

/-- Number of (possibly overlapping) occurrences of `pat` in `s`. -/
def countOccs (pat : List Char) : List Char → Nat
  | [] => 0
  | c :: rest => (if pat.isPrefixOf (c :: rest) then 1 else 0) + countOccs pat rest

/-- Occurrence count on strings. -/
def countOccsStr (pat s : String) : Nat := countOccs pat.data s.data

/-- Whether `pat` occurs as a contiguous substring of `s`. -/
def containsSub (pat : List Char) : List Char → Bool
  | [] => pat.isEmpty
  | c :: rest => pat.isPrefixOf (c :: rest) || containsSub pat rest

/-- Substring test on strings. -/
def containsSubStr (pat s : String) : Bool := containsSub pat.data s.data

/-- The debounce delay of the preview render effect (src/src/App.js line 808). -/
def DEBOUNCE_MS : Nat := 400

/-- The debounced render schedule (src/src/App.js lines 805-810).  Input: the
sequence of content-affecting edits, each tagged with its arrival time and the
FileSet value it produces.  Each edit's effect run clears the pending timer
(the effect cleanup calls `clearTimeout`) and schedules a render of the
then-current FileSet `DEBOUNCE_MS` later; a scheduled render fires only when no
further edit arrives strictly before its fire time.  Output: the list of
`(fire time, assigned srcdoc)` pairs, in order. -/
def debounceRenders : List (Nat × List SourceFile) → List (Nat × String)
  | [] => []
  | [(t, fs)] => [(t + DEBOUNCE_MS, buildSrcDoc fs)]
  | (t, fs) :: (t2, fs2) :: rest =>
    (if t2 < t + DEBOUNCE_MS then [] else [(t + DEBOUNCE_MS, buildSrcDoc fs)]) ++
      debounceRenders ((t2, fs2) :: rest)

/-- JS `name.split(".")` (used at src/src/App.js line 831): splits at every
dot; the empty string yields `[""]`, a dotless name yields itself. -/
def splitOnDot : List Char → List (List Char)
  | [] => [[]]
  | c :: rest =>
    let r := splitOnDot rest
    if c = '.' then [] :: r
    else
      match r with
      | [] => [[c]]
      | g :: gs => (c :: g) :: gs

/-- `relativePath.split('.').pop().toLowerCase()` (src/src/App.js line 831):
the (lowercased) extension of a bundle entry name. -/
def extOf (name : String) : String :=
  String.mk (((splitOnDot name.data).getLastD []).map Char.toLower)

/-- The fixed extension lookup of the zip import (src/src/App.js line 832):
`["html","css","js","py","md"].includes(ext) ? ext : "txt"`. -/
def extToType (ext : String) : String :=
  if ["html", "css", "js", "py", "md"].contains ext then ext else "txt"

/-- The kind assigned to an imported bundle entry, from its name alone
(src/src/App.js lines 831-832). -/
def fileTypeOfName (name : String) : String := extToType (extOf name)

/-- One entry of a parsed zip bundle: its path/name, whether it is a directory
entry, and its text content. -/
structure ZipEntry where
  name : String
  dir : Bool
  content : String
deriving DecidableEq, Repr

/-- The file record built from a non-directory bundle entry
(src/src/App.js lines 830-835). -/
def entryToFile (e : ZipEntry) : SourceFile :=
  { name := e.name, type := fileTypeOfName e.name, code := e.content }

/-- `handleZipUpload(file)` (src/src/App.js lines 823-849), with the external
`JSZip.loadAsync` boundary modelled as an already-delivered parse result:
`.error` is the caught exception path.  Returns the next
`(files, activeFileIdx)` state together with the `alert` message shown, if
any.  On parse failure, and on a bundle with no non-directory entries, the
state is returned untouched. -/
def handleZipUpload (parsed : Except String (List ZipEntry))
    (files : List SourceFile) (activeFileIdx : Nat) :
    (List SourceFile × Nat) × Option String :=
  match parsed with
  | .error err => ((files, activeFileIdx), some ("Failed to load ZIP: " ++ err))
  | .ok entries =>
    let newFiles := (entries.filter (fun e => !e.dir)).map entryToFile
    if newFiles.length > 0 then ((newFiles, 0), none)
    else ((files, activeFileIdx), some "No valid files found in the ZIP!")

/-! ### Persistence shim

`JSON.stringify` / `JSON.parse` restricted to the values this app persists:
arrays of `{ name, type, code }` records with string fields (the grammar
`JSON.stringify` emits for them), and the decimal numeral stored under
`vibe_active`. -/

/-- The opening brace character. -/
def lbrace : Char := Char.ofNat 123

/-- The closing brace character. -/
def rbrace : Char := Char.ofNat 125

/-- Lowercase hexadecimal digit, as emitted by `JSON.stringify` in `\u00xx`
escapes. -/
def hexDigitChar (n : Nat) : Char :=
  if n < 10 then Char.ofNat (48 + n) else Char.ofNat (87 + n)

/-- `JSON.stringify` escaping of one string character: `"` and `\` get a
backslash, the named control escapes `\b \t \n \f \r` are used where they
exist, the remaining control characters become `\u00xx`, and every other
character is emitted as itself. -/
def escapeChar (c : Char) : List Char :=
  if c = '\"' then ['\\', '\"']
  else if c = '\\' then ['\\', '\\']
  else if c = Char.ofNat 8 then ['\\', 'b']
  else if c = '\t' then ['\\', 't']
  else if c = '\n' then ['\\', 'n']
  else if c = Char.ofNat 12 then ['\\', 'f']
  else if c = Char.ofNat 13 then ['\\', 'r']
  else if c.toNat < 32 then
    ['\\', 'u', '0', '0', hexDigitChar (c.toNat / 16), hexDigitChar (c.toNat % 16)]
  else [c]

/-- `JSON.stringify` of a string value: quoted, characters escaped. -/
def encodeJString (s : String) : List Char :=
  '\"' :: (s.data.map escapeChar).flatten ++ ['\"']

/-- Value of a hexadecimal digit character, for `\uXXXX` escapes. -/
def hexVal (c : Char) : Option Nat :=
  if 48 ≤ c.toNat ∧ c.toNat ≤ 57 then some (c.toNat - 48)
  else if 97 ≤ c.toNat ∧ c.toNat ≤ 102 then some (c.toNat - 87)
  else if 65 ≤ c.toNat ∧ c.toNat ≤ 70 then some (c.toNat - 55)
  else none

/-- Decode a `\uXXXX` escape's four hex digits. -/
def hex4 (h1 h2 h3 h4 : Char) : Option Nat :=
  match hexVal h1, hexVal h2, hexVal h3, hexVal h4 with
  | some a, some b, some c, some d => some (((a * 16 + b) * 16 + c) * 16 + d)
  | _, _, _, _ => none

/-- JSON string-body parser: consumes characters up to the closing quote,
decoding escapes, and returns the decoded characters and the remaining input.
Each step consumes at least one character, so `fuel` larger than the input
length never runs out; callers pass `length + 1`. -/
def parseJStringBody : Nat → List Char → Option (List Char × List Char)
  | 0, _ => none
  | _ + 1, [] => none
  | fuel + 1, c :: rest =>
    if c = '\"' then some ([], rest)
    else if c = '\\' then
      match rest with
      | [] => none
      | e :: rest2 =>
        if e = '\"' then (parseJStringBody fuel rest2).map (fun p => ('\"' :: p.1, p.2))
        else if e = '\\' then (parseJStringBody fuel rest2).map (fun p => ('\\' :: p.1, p.2))
        else if e = '/' then (parseJStringBody fuel rest2).map (fun p => ('/' :: p.1, p.2))
        else if e = 'b' then
          (parseJStringBody fuel rest2).map (fun p => (Char.ofNat 8 :: p.1, p.2))
        else if e = 't' then (parseJStringBody fuel rest2).map (fun p => ('\t' :: p.1, p.2))
        else if e = 'n' then (parseJStringBody fuel rest2).map (fun p => ('\n' :: p.1, p.2))
        else if e = 'f' then
          (parseJStringBody fuel rest2).map (fun p => (Char.ofNat 12 :: p.1, p.2))
        else if e = 'r' then
          (parseJStringBody fuel rest2).map (fun p => (Char.ofNat 13 :: p.1, p.2))
        else if e = 'u' then
          match rest2 with
          | h1 :: h2 :: h3 :: h4 :: rest3 =>
            match hex4 h1 h2 h3 h4 with
            | some n =>
              (parseJStringBody fuel rest3).map (fun p => (Char.ofNat n :: p.1, p.2))
            | none => none
          | _ => none
        else none
    else (parseJStringBody fuel rest).map (fun p => (c :: p.1, p.2))

/-- JSON string parser: expects an opening quote then a string body. -/
def parseJString (s : List Char) : Option (String × List Char) :=
  match s with
  | [] => none
  | c :: rest =>
    if c = '\"' then
      (parseJStringBody (rest.length + 1) rest).map (fun p => (String.mk p.1, p.2))
    else none

/-- Consume an exact literal character sequence. -/
def parseExact : List Char → List Char → Option (List Char)
  | [], s => some s
  | _ :: _, [] => none
  | c :: ps, x :: xs => if x = c then parseExact ps xs else none

/-- The literal opening a serialized file object, through the `name` key. -/
def objOpen : List Char := lbrace :: ("\"name\":").data

/-- The literal between the `name` value and the `type` value. -/
def keyType : List Char := (",\"type\":").data

/-- The literal between the `type` value and the `code` value. -/
def keyCode : List Char := (",\"code\":").data

/-- `JSON.stringify` of one file record.  Key order is the record's property
creation order, which is `name`, `type`, `code` for every object this app
builds (`DEFAULT_FILES`, `addFile`, the zip import, and `{...f}` spreads). -/
def encodeFile (f : SourceFile) : List Char :=
  objOpen ++ encodeJString f.name ++ keyType ++ encodeJString f.type ++
    keyCode ++ encodeJString f.code ++ [rbrace]

/-- Parser for one serialized file object. -/
def parseFileObj (s : List Char) : Option (SourceFile × List Char) :=
  (parseExact objOpen s).bind fun s1 =>
  (parseJString s1).bind fun p1 =>
  (parseExact keyType p1.2).bind fun s2 =>
  (parseJString s2).bind fun p2 =>
  (parseExact keyCode p2.2).bind fun s3 =>
  (parseJString s3).bind fun p3 =>
  (parseExact [rbrace] p3.2).map fun s4 =>
  ({ name := p1.1, type := p2.1, code := p3.1 }, s4)

/-- The comma-separated body of `JSON.stringify` of a file array. -/
def encodeFilesList : List SourceFile → List Char
  | [] => []
  | [f] => encodeFile f
  | f :: rest => encodeFile f ++ ',' :: encodeFilesList rest

/-- `JSON.stringify(files)` (src/src/App.js line 688). -/
def encodeFiles (files : List SourceFile) : String :=
  String.mk ('[' :: encodeFilesList files ++ [']'])

/-- Fuel-indexed parser for a nonempty comma-separated object sequence
terminated by `]`. -/
def parseFilesAux : Nat → List Char → Option (List SourceFile × List Char)
  | 0, _ => none
  | fuel + 1, s =>
    (parseFileObj s).bind fun p =>
    match p.2 with
    | ',' :: s2 => (parseFilesAux fuel s2).map (fun q => (p.1 :: q.1, q.2))
    | ']' :: s2 => some ([p.1], s2)
    | _ => none

/-- `JSON.parse` (character-list level) on the array grammar the autosave
writes; anything outside that grammar is a parse failure (`none`), as it is
for the inputs that make `JSON.parse` throw. -/
def parseFilesTopList : List Char → Option (List SourceFile)
  | [] => none
  | c :: rest =>
    if c = '[' then
      if rest = [']'] then some []
      else
        match parseFilesAux (rest.length + 1) rest with
        | some (fs, []) => some fs
        | _ => none
    else none

/-- `JSON.parse` on the array grammar the autosave writes. -/
def parseFilesTop (s : String) : Option (List SourceFile) :=
  parseFilesTopList s.data

/-- Decimal digit character of `n < 10`. -/
def digitCharOf (n : Nat) : Char := Char.ofNat (48 + n)

/-- The decimal numeral of a natural number, as JS `String(n)` produces for
the numbers stored under `vibe_active`. -/
def toDecimal (n : Nat) : List Char :=
  if _h : n < 10 then [digitCharOf n]
  else toDecimal (n / 10) ++ [digitCharOf (n % 10)]
decreasing_by exact Nat.div_lt_self (by omega) (by omega)

/-- Value of a decimal digit character. -/
def digitVal (c : Char) : Option Nat :=
  if 48 ≤ c.toNat ∧ c.toNat ≤ 57 then some (c.toNat - 48) else none

/-- Accumulating decimal parser. -/
def parseDecAux : List Char → Nat → Option Nat
  | [], acc => some acc
  | c :: rest, acc => (digitVal c).bind fun d => parseDecAux rest (acc * 10 + d)

/-- JS `Number(s)` (character-list level) on the decimal numerals this app
stores under `vibe_active`; strings the app never writes there (non-numerals,
which JS turns into `NaN`) are modelled as 0. -/
def parseDecList (l : List Char) : Nat :=
  match l with
  | [] => 0
  | _ => (parseDecAux l 0).getD 0

/-- JS `Number(s)` on the decimal numerals this app stores. -/
def parseDec (s : String) : Nat := parseDecList s.data

/-- The two localStorage keys the app uses (src/src/App.js lines 674, 681,
688, 692): `vibe_files` and `vibe_active`; `none` models an absent key. -/
structure StorageState where
  vibeFiles : Option String
  vibeActive : Option String
deriving DecidableEq, Repr

/-- The autosave effects (src/src/App.js lines 686-693): `vibe_files` gets
`JSON.stringify(files)`, `vibe_active` gets the decimal of `activeFileIdx`. -/
def saveState (files : List SourceFile) (activeFileIdx : Nat) : StorageState :=
  { vibeFiles := some (encodeFiles files)
    vibeActive := some (String.mk (toDecimal activeFileIdx)) }

/-- The `files` useState initializer (src/src/App.js lines 672-679): parse
`vibe_files` if present and parseable, else fall back to `DEFAULT_FILES`
(an absent key and the empty string are falsy; a `JSON.parse` throw is
caught). -/
def loadFilesFromStorage (st : StorageState) : List SourceFile :=
  match st.vibeFiles with
  | none => DEFAULT_FILES
  | some s => if s = "" then DEFAULT_FILES else (parseFilesTop s).getD DEFAULT_FILES

/-- The `activeFileIdx` useState initializer (src/src/App.js lines 680-683):
`saved ? Number(saved) : 0` — no validation against the restored file list. -/
def loadActiveFromStorage (st : StorageState) : Nat :=
  match st.vibeActive with
  | none => 0
  | some s => if s = "" then 0 else parseDec s

/-! ### Helper lemmas -/

/-- `find?` on the `LANGUAGES` table returns the queried member itself. -/
theorem find_LANGUAGES (lang : Language) (h : lang ∈ LANGUAGES) :
    LANGUAGES.find? (fun l => l.type == lang.type) = some lang := by
  fin_cases h <;> rfl

/-- `mapIdx` with a function touching only index `idx` is the identity when
`idx` is out of range. -/
theorem mapIdx_out_of_range (files : List SourceFile) (idx : Nat)
    (g : SourceFile → SourceFile) (h : files.length ≤ idx) :
    files.mapIdx (fun i f => if i = idx then g f else f) = files := by
  apply List.ext_getElem?
  intro i
  rw [List.getElem?_mapIdx]
  by_cases hi : i < files.length
  · rw [List.getElem?_eq_getElem hi]
    have : i ≠ idx := by omega
    simp [this]
  · rw [List.getElem?_eq_none (by omega)]
    rfl

/-! ### Claim theorems -/

/-- Claim C1, counterexample: in the FileSet holding one `html` file and one
`css` file, the kind `css` has exactly one file (at index 1), yet
`removeFile 1` does not leave the FileSet unchanged — it deletes that file,
leaving the `css` kind with no file at all.  The guard in `removeFile`
(src/src/App.js line 778) tests the total file count, not the per-kind
count. -/
theorem c1_remove_sole_kind_file_counterexample :
    (([⟨"index.html", "html", "<h1>Hi</h1>"⟩,
       ⟨"style.css", "css", "h1\x7bcolor:red\x7d"⟩] : List SourceFile).filter
        (fun f => f.type == "css")).length = 1 ∧
    removeFile 1 [⟨"index.html", "html", "<h1>Hi</h1>"⟩,
       ⟨"style.css", "css", "h1\x7bcolor:red\x7d"⟩] 1 ≠
      ([⟨"index.html", "html", "<h1>Hi</h1>"⟩,
       ⟨"style.css", "css", "h1\x7bcolor:red\x7d"⟩], 1) ∧
    (((removeFile 1 [⟨"index.html", "html", "<h1>Hi</h1>"⟩,
       ⟨"style.css", "css", "h1\x7bcolor:red\x7d"⟩] 1).1).filter
        (fun f => f.type == "css")).length = 0 := by
  decide

/-- Claim C1, amended: `removeFile` is a no-op exactly when the FileSet holds
one file in total, regardless of kind; the per-kind no-op of the spec holds
only in the tabbed variant, where each kind is its own list and
`removeHtmlFile` refuses to remove that list's last file. -/
theorem c1_remove_last_file_noop_amended :
    (∀ (files : List SourceFile) (idx a : Nat), files.length = 1 →
      removeFile idx files a = (files, a)) ∧
    (∀ (tfiles : List TabFile) (i : Nat), tfiles.length = 1 →
      removeHtmlFile i tfiles = tfiles) := by
  constructor
  · intro files idx a h
    simp [removeFile, h]
  · intro tfiles i h
    simp [removeHtmlFile, h]

/-- Claim C1, witness: the amended no-op at a concrete single-file FileSet. -/
theorem c1_remove_last_file_noop_witness :
    removeFile 0 [⟨"index.html", "html", "<h1>Hi</h1>"⟩] 7 =
      ([⟨"index.html", "html", "<h1>Hi</h1>"⟩], 7) ∧
    removeHtmlFile 0 [⟨"index.html", "html", "<h1>Hi</h1>"⟩] =
      [⟨"index.html", "html", "<h1>Hi</h1>"⟩] :=
  ⟨c1_remove_last_file_noop_amended.1 _ 0 7 rfl,
   c1_remove_last_file_noop_amended.2 _ 0 rfl⟩

/-- Claim C5, counterexample: adding the first file of a kind does not carry
the numeral `n = count + 1 = 1` in its generated name.  `DEFAULT_FILES` has
zero `py` files, and `addFile "py"` appends a file named `"python.py"`, in
which the numeral `"1"` does not occur (the code writes the numeral only when
`num > 1`, src/src/App.js line 773). -/
theorem c5_addfile_first_name_counterexample :
    (DEFAULT_FILES.filter (fun f => f.type == "py")).length = 0 ∧
    addFile "py" DEFAULT_FILES =
      some (DEFAULT_FILES ++
        [⟨"python.py", "py", "print(\x27Hello, Python!\x27)"⟩], 3) ∧
    containsSubStr (Nat.repr 1) "python.py" = false := by
  refine ⟨by decide, ?_, by decide⟩
  decide

/-- Claim C5, amended: for a kind in the `LANGUAGES` table, `addFile` appends
exactly one file of that kind, keeps the existing files untouched, gives the
new file the kind's placeholder content, and makes it active (the new active
index is the appended file's position).  The generated name is the lowercased
label followed directly by the extension when the kind had no files, and
carries the numeral `count + 1` before the extension otherwise. -/
theorem c5_addfile_amended (files : List SourceFile) (lang : Language)
    (h : lang ∈ LANGUAGES) :
    ∃ res : List SourceFile × Nat, addFile lang.type files = some res ∧
      res.1.length = files.length + 1 ∧
      (res.1.filter (fun f => f.type == lang.type)).length =
        (files.filter (fun f => f.type == lang.type)).length + 1 ∧
      res.1.take files.length = files ∧
      res.2 = files.length ∧
      res.2 < res.1.length ∧
      ∃ nf : SourceFile, res.1 = files ++ [nf] ∧
        nf.type = lang.type ∧ nf.code = lang.sample ∧
        ((files.filter (fun f => f.type == lang.type)).length = 0 →
          nf.name = toLowerStr lang.label ++ lang.ext) ∧
        (0 < (files.filter (fun f => f.type == lang.type)).length →
          nf.name = toLowerStr lang.label ++
            Nat.repr ((files.filter (fun f => f.type == lang.type)).length + 1) ++
            lang.ext) := by
  have hfind := find_LANGUAGES lang h
  have heq : addFile lang.type files =
      some (files ++
        [{ name := (toLowerStr lang.label ++
              (if (files.filter (fun f => f.type == lang.type)).length + 1 > 1 then
                Nat.repr ((files.filter (fun f => f.type == lang.type)).length + 1)
              else "")) ++ lang.ext
           type := lang.type
           code := lang.sample }], files.length) := by
    simp only [addFile, hfind]
  refine ⟨_, heq, ?_, ?_, ?_, rfl, ?_, ?_⟩
  · simp
  · simp [List.filter_append]
  · simp [List.take_left]
  · simp
  · refine ⟨_, rfl, rfl, rfl, ?_, ?_⟩
    · intro hz
      simp only [hz]
      norm_num
    · intro hp
      have hgt : (files.filter (fun f => f.type == lang.type)).length + 1 > 1 := by omega
      simp only [if_pos hgt]

/-- Claim C5, witness: the amended theorem applied to `DEFAULT_FILES` and the
Python language entry. -/
theorem c5_addfile_amended_witness :
    ∃ res : List SourceFile × Nat, addFile "py" DEFAULT_FILES = some res ∧
      res.1.length = 4 ∧ res.2 = 3 := by
  obtain ⟨res, h1, h2, -, -, h5, -⟩ :=
    c5_addfile_amended DEFAULT_FILES
      ⟨"py", "Python", ".py", "print(\x27Hello, Python!\x27)"⟩ (by decide)
  exact ⟨res, h1, by rw [h2]; rfl, by rw [h5]; rfl⟩

/-- Claim C6, code-bug evidence: the startup restore does not validate the
persisted active index against the restored file list.  With `vibe_files`
unparseable (so the files fall back to the three `DEFAULT_FILES`) and
`vibe_active` persisted as `"5"`, the restored state has `activeFileIdx = 5`,
which is not a valid index into the restored list — the render then reads
`files[5].type` of `undefined` and crashes, contradicting the spec's
invariant. -/
theorem c6_restored_active_index_invalid :
    loadActiveFromStorage ⟨some "corrupt", some "5"⟩ = 5 ∧
    loadFilesFromStorage ⟨some "corrupt", some "5"⟩ = DEFAULT_FILES ∧
    ¬ (loadActiveFromStorage ⟨some "corrupt", some "5"⟩ <
        (loadFilesFromStorage ⟨some "corrupt", some "5"⟩).length) := by
  decide

/-- Claim C7: the kind assigned to an imported bundle entry is a function of
the entry name's (lowercased, last-dot) extension alone, via the fixed table:
`html ↦ markup(html)`, `css ↦ style(css)`, `js ↦ script(js)`,
`py ↦ interpreted(py)`, `md ↦ narrative(md)`, anything else — including a
name with no dot — to the generic text kind `txt`; the lookup is
case-insensitive in the extension.  In particular the spec's scenario
`a.html, b.css, c.py, d.txt` yields `html, css, py, txt`. -/
theorem c7_extension_kind_mapping :
    (∀ n₁ n₂ : String, extOf n₁ = extOf n₂ → fileTypeOfName n₁ = fileTypeOfName n₂) ∧
    fileTypeOfName "a.html" = "html" ∧
    fileTypeOfName "b.css" = "css" ∧
    fileTypeOfName "c.py" = "py" ∧
    fileTypeOfName "d.txt" = "txt" ∧
    fileTypeOfName "x.js" = "js" ∧
    fileTypeOfName "y.md" = "md" ∧
    fileTypeOfName "z.xyz" = "txt" ∧
    fileTypeOfName "UPPER.HTML" = "html" ∧
    fileTypeOfName "noext" = "txt" ∧
    fileTypeOfName "a.b.css" = "css" := by
  refine ⟨fun n₁ n₂ h => by simp [fileTypeOfName, h], ?_, ?_, ?_, ?_, ?_, ?_, ?_, ?_, ?_, ?_⟩
    <;> decide

/-- Claim C7, witness: the extension-determinism component at two concrete
names sharing the `md` extension. -/
theorem c7_extension_kind_mapping_witness :
    fileTypeOfName "k1.md" = fileTypeOfName "k2.md" :=
  c7_extension_kind_mapping.1 "k1.md" "k2.md" (by decide)

/-- Claim C8: when the bundle fails to parse (the `JSZip.loadAsync` promise
rejects), `handleZipUpload` reports the failure to the user and leaves the
FileSet and the active selection exactly as they were; replacement happens
only on the success path. -/
theorem c8_import_error_atomic (files : List SourceFile) (a : Nat) (err : String) :
    handleZipUpload (.error err) files a =
      ((files, a), some ("Failed to load ZIP: " ++ err)) := by
  rfl

/-- Claim C9: the rename operation and the Monaco content update are total;
at any index outside the file list they return the FileSet unchanged instead
of raising or writing an undefined entry (`files.map((f, i) => i === idx ...)`
touches nothing when no position equals `idx`). -/
theorem c9_out_of_range_noop (files : List SourceFile) (idx : Nat)
    (s : String) (h : files.length ≤ idx) :
    renameFile idx s files = files ∧ setContent idx s files = files :=
  ⟨mapIdx_out_of_range files idx _ h, mapIdx_out_of_range files idx _ h⟩

/-- Claim C9, witness: renaming and editing at index 5 of a two-file list
changes nothing. -/
theorem c9_out_of_range_noop_witness :
    renameFile 5 "new.html" [⟨"a.html", "html", "x"⟩, ⟨"b.css", "css", "y"⟩] =
      [⟨"a.html", "html", "x"⟩, ⟨"b.css", "css", "y"⟩] ∧
    setContent 5 "z" [⟨"a.html", "html", "x"⟩, ⟨"b.css", "css", "y"⟩] =
      [⟨"a.html", "html", "x"⟩, ⟨"b.css", "css", "y"⟩] :=
  c9_out_of_range_noop _ 5 _ (by decide)

/-- Claim C10: a bundle that parses but yields no non-directory entry leaves
the FileSet and active selection unchanged and notifies the user; the FileSet
is replaced (wholesale, with the active index reset to 0) only when at least
one file entry is present. -/
theorem c10_empty_bundle_noop (files : List SourceFile) (a : Nat)
    (entries : List ZipEntry) :
    (entries.filter (fun e => !e.dir) = [] →
      handleZipUpload (.ok entries) files a =
        ((files, a), some "No valid files found in the ZIP!")) ∧
    (entries.filter (fun e => !e.dir) ≠ [] →
      handleZipUpload (.ok entries) files a =
        (((entries.filter (fun e => !e.dir)).map entryToFile, 0), none)) := by
  constructor
  · intro h
    simp [handleZipUpload, h]
  · intro h
    have hl : 0 < ((entries.filter (fun e => !e.dir)).map entryToFile).length := by
      rw [List.length_map]
      exact List.length_pos.mpr h
    have hl' : ((entries.filter (fun e => !e.dir)).map entryToFile).length > 0 := hl
    simp only [handleZipUpload]
    rw [if_pos hl']

/-- Claim C10, witness: a directories-only bundle is a no-op with a notice,
and a one-file bundle replaces the FileSet. -/
theorem c10_empty_bundle_noop_witness :
    handleZipUpload (.ok [⟨"dir/", true, ""⟩]) DEFAULT_FILES 2 =
      ((DEFAULT_FILES, 2), some "No valid files found in the ZIP!") ∧
    handleZipUpload (.ok [⟨"a.html", false, "<p>x</p>"⟩]) DEFAULT_FILES 2 =
      (([⟨"a.html", "html", "<p>x</p>"⟩], 0), none) := by
  constructor
  · exact (c10_empty_bundle_noop DEFAULT_FILES 2 _).1 (by decide)
  · have := (c10_empty_bundle_noop DEFAULT_FILES 2 [⟨"a.html", false, "<p>x</p>"⟩]).2
      (by decide)
    rw [this]
    decide

/-- Claim C2: for any nonempty burst of content edits in which every edit
arrives strictly less than `DEBOUNCE_MS` (400) time units after the previous
one, exactly one srcdoc assignment occurs; it fires `DEBOUNCE_MS` after the
last edit and carries the document composed from the final FileSet only (each
earlier edit's pending timer is cleared by the effect cleanup before it can
fire, so at most one render is pending at any time, and every earlier
captured state is discarded). -/
theorem c2_debounce_single_render :
    ∀ (pre : List (Nat × List SourceFile)) (t : Nat) (fs : List SourceFile),
      List.Chain' (fun a b => a.1 < b.1 ∧ b.1 < a.1 + DEBOUNCE_MS) (pre ++ [(t, fs)]) →
      debounceRenders (pre ++ [(t, fs)]) = [(t + DEBOUNCE_MS, buildSrcDoc fs)] := by
  intro pre
  induction pre with
  | nil => intro t fs _; rfl
  | cons hd tl ih =>
    intro t fs hch
    obtain ⟨t0, f0⟩ := hd
    cases tl with
    | nil =>
      simp only [List.cons_append, List.nil_append] at hch ⊢
      rw [List.chain'_cons] at hch
      obtain ⟨⟨h1, h2⟩, -⟩ := hch
      simp only [debounceRenders]
      rw [if_pos h2, List.nil_append]
    | cons hd2 tl2 =>
      obtain ⟨t1, f1⟩ := hd2
      simp only [List.cons_append] at hch ⊢
      rw [List.chain'_cons] at hch
      obtain ⟨⟨h1, h2⟩, hch'⟩ := hch
      simp only [debounceRenders]
      rw [if_pos h2, List.nil_append]
      exact ih t fs hch'

/-- Claim C2, witness: two edits 300 time units apart produce exactly the one
render, 400 units after the second edit, of the second edit's FileSet. -/
theorem c2_debounce_single_render_witness :
    debounceRenders [(0, []), (300, DEFAULT_FILES)] =
      [(700, buildSrcDoc DEFAULT_FILES)] := by
  have h := c2_debounce_single_render [(0, [])] 300 DEFAULT_FILES
    (by simp [List.chain'_cons, List.chain'_singleton, DEBOUNCE_MS])
  simpa [DEBOUNCE_MS] using h

set_option maxRecDepth 100000 in
/-- Claim C3: `buildSrcDoc` always decomposes as the fixed template with the
three newline-joined, FileSet-ordered payloads plugged in (styles inside the
single style block, markup in the body, scripts inside the single try/catch
guarded script block whose catch appends a visible error message to the
body); the template contributes exactly one style block and one script block
(counted on the empty FileSet and on the spec's scenario); on the scenario of
one markup file `<h1>Hi</h1>`, one style file `h1{color:red}` and one script
file `console.log(1)`, the composed document contains the single style block
`<style>h1{color:red}</style>`, the body markup, and the guarded script; and
same-kind contents appear in insertion order, not alphabetical order. -/
theorem c3_compose_structure :
    (∀ files : List SourceFile,
      buildSrcDoc files = docPart1 ++ composeStyles files ++ docPart2 ++
        composeMarkup files ++ docPart3 ++ composeScripts files ++ docPart4) ∧
    countOccsStr "<style>" (buildSrcDoc []) = 1 ∧
    countOccsStr "<script>" (buildSrcDoc []) = 1 ∧
    countOccsStr "<style>" (buildSrcDoc
      [⟨"index.html", "html", "<h1>Hi</h1>"⟩,
       ⟨"style.css", "css", "h1\x7bcolor:red\x7d"⟩,
       ⟨"main.js", "js", "console.log(1)"⟩]) = 1 ∧
    countOccsStr "<script>" (buildSrcDoc
      [⟨"index.html", "html", "<h1>Hi</h1>"⟩,
       ⟨"style.css", "css", "h1\x7bcolor:red\x7d"⟩,
       ⟨"main.js", "js", "console.log(1)"⟩]) = 1 ∧
    containsSubStr "<style>h1\x7bcolor:red\x7d</style>" (buildSrcDoc
      [⟨"index.html", "html", "<h1>Hi</h1>"⟩,
       ⟨"style.css", "css", "h1\x7bcolor:red\x7d"⟩,
       ⟨"main.js", "js", "console.log(1)"⟩]) = true ∧
    containsSubStr "<h1>Hi</h1>" (buildSrcDoc
      [⟨"index.html", "html", "<h1>Hi</h1>"⟩,
       ⟨"style.css", "css", "h1\x7bcolor:red\x7d"⟩,
       ⟨"main.js", "js", "console.log(1)"⟩]) = true ∧
    containsSubStr "try \x7b console.log(1) \x7d" (buildSrcDoc
      [⟨"index.html", "html", "<h1>Hi</h1>"⟩,
       ⟨"style.css", "css", "h1\x7bcolor:red\x7d"⟩,
       ⟨"main.js", "js", "console.log(1)"⟩]) = true ∧
    containsSubStr
      "catch(e) \x7b document.body.innerHTML += \"<pre style=\x27color:red\x27>\" + e + \"</pre>\"; \x7d"
      (buildSrcDoc
      [⟨"index.html", "html", "<h1>Hi</h1>"⟩,
       ⟨"style.css", "css", "h1\x7bcolor:red\x7d"⟩,
       ⟨"main.js", "js", "console.log(1)"⟩]) = true ∧
    containsSubStr "BBB\nAAA" (buildSrcDoc
      [⟨"b.css", "css", "BBB"⟩, ⟨"a.css", "css", "AAA"⟩]) = true ∧
    containsSubStr "AAA\nBBB" (buildSrcDoc
      [⟨"b.css", "css", "BBB"⟩, ⟨"a.css", "css", "AAA"⟩]) = false := by
  refine ⟨fun _ => rfl, ?_, ?_, ?_, ?_, ?_, ?_, ?_, ?_, ?_, ?_⟩ <;> decide

/-! ### Round-trip lemmas for the persistence codec -/

/-- `hexVal` inverts `hexDigitChar` on hex digit values. -/
theorem hexVal_hexDigitChar : ∀ n : Nat, n < 16 → hexVal (hexDigitChar n) = some n := by
  decide

/-- `digitVal` inverts `digitCharOf` on decimal digit values. -/
theorem digitVal_digitCharOf : ∀ n : Nat, n < 10 → digitVal (digitCharOf n) = some n := by
  decide

/-- The `\u00xx` escape hex pair decodes back to the escaped code point. -/
theorem hex4_hexDigit : ∀ n : Nat, n < 32 →
    hex4 '0' '0' (hexDigitChar (n / 16)) (hexDigitChar (n % 16)) = some n := by
  decide

/-- The string-body parser undoes the escaping of one character. -/
theorem parse_escapeChar (fuel : Nat) (c : Char) (tail : List Char) :
    parseJStringBody (fuel + 1) (escapeChar c ++ tail) =
      (parseJStringBody fuel tail).map (fun p => (c :: p.1, p.2)) := by
  by_cases h1 : c = '\"'
  · subst h1; rfl
  by_cases h2 : c = '\\'
  · subst h2; rfl
  by_cases h3 : c = Char.ofNat 8
  · subst h3; rfl
  by_cases h4 : c = '\t'
  · subst h4; rfl
  by_cases h5 : c = '\n'
  · subst h5; rfl
  by_cases h6 : c = Char.ofNat 12
  · subst h6; rfl
  by_cases h7 : c = Char.ofNat 13
  · subst h7; rfl
  by_cases h8 : c.toNat < 32
  · have hflat : escapeChar c ++ tail =
        '\\' :: 'u' :: '0' :: '0' :: hexDigitChar (c.toNat / 16) ::
          hexDigitChar (c.toNat % 16) :: tail := by
      simp [escapeChar, h1, h2, h3, h4, h5, h6, h7, h8]
    rw [hflat]
    show (match hex4 '0' '0' (hexDigitChar (c.toNat / 16)) (hexDigitChar (c.toNat % 16)) with
      | some n => (parseJStringBody fuel tail).map (fun p => (Char.ofNat n :: p.1, p.2))
      | none => none) =
      (parseJStringBody fuel tail).map (fun p => (c :: p.1, p.2))
    rw [hex4_hexDigit c.toNat h8]
    show (parseJStringBody fuel tail).map (fun p => (Char.ofNat c.toNat :: p.1, p.2)) =
      (parseJStringBody fuel tail).map (fun p => (c :: p.1, p.2))
    rw [Char.ofNat_toNat]
  · have hflat : escapeChar c ++ tail = c :: tail := by
      simp [escapeChar, h1, h2, h3, h4, h5, h6, h7, h8]
    rw [hflat, parseJStringBody.eq_def]
    simp only [h1, h2, if_false]

/-- Escaping a character never produces the empty sequence. -/
theorem escapeChar_length_pos (c : Char) : 0 < (escapeChar c).length := by
  unfold escapeChar
  split_ifs <;> simp

/-- Escaping cannot shrink a string. -/
theorem length_le_flatten_escape (cs : List Char) :
    cs.length ≤ ((cs.map escapeChar).flatten).length := by
  induction cs with
  | nil => simp
  | cons c cs ih =>
    simp only [List.map_cons, List.flatten_cons, List.length_append, List.length_cons]
    have := escapeChar_length_pos c
    omega

/-- The string-body parser undoes the escaping of a whole character list,
given fuel beyond the list's length. -/
theorem parse_escape_flatten :
    ∀ (cs : List Char) (fuel : Nat) (tail : List Char), cs.length < fuel →
      parseJStringBody fuel ((cs.map escapeChar).flatten ++ '\"' :: tail) = some (cs, tail) := by
  intro cs
  induction cs with
  | nil =>
    intro fuel tail h
    obtain ⟨k, rfl⟩ : ∃ k, fuel = k + 1 := ⟨fuel - 1, by omega⟩
    rfl
  | cons c cs ih =>
    intro fuel tail h
    obtain ⟨k, rfl⟩ : ∃ k, fuel = k + 1 := ⟨fuel - 1, by omega⟩
    simp only [List.map_cons, List.flatten_cons, List.append_assoc]
    rw [parse_escapeChar k c, ih k tail (by simpa using Nat.lt_of_succ_lt_succ h)]
    rfl

/-- The string parser inverts `encodeJString`. -/
theorem parseJString_encode (s : String) (tail : List Char) :
    parseJString (encodeJString s ++ tail) = some (s, tail) := by
  have hfuel : s.data.length <
      ((s.data.map escapeChar).flatten ++ '\"' :: tail).length + 1 := by
    have := length_le_flatten_escape s.data
    simp only [List.length_append, List.length_cons]
    omega
  simp only [encodeJString, List.cons_append, List.append_assoc, List.singleton_append,
    List.nil_append]
  show (if ('\"' : Char) = '\"' then _ else none) = _
  rw [if_pos rfl, parse_escape_flatten s.data _ tail hfuel]
  rfl

/-- `parseExact` consumes exactly the literal it is given. -/
theorem parseExact_append (ps rest : List Char) : parseExact ps (ps ++ rest) = some rest := by
  induction ps with
  | nil => rfl
  | cons c ps ih => simp [parseExact, ih]

/-- The object parser inverts `encodeFile`. -/
theorem parseFileObj_encode (f : SourceFile) (rest : List Char) :
    parseFileObj (encodeFile f ++ rest) = some (f, rest) := by
  simp only [encodeFile, parseFileObj, List.append_assoc, parseExact_append,
    parseJString_encode, Option.some_bind]
  rfl

/-- Serialized file lists are at least as long as the file lists themselves. -/
theorem length_le_encodeFilesList :
    ∀ fs : List SourceFile, fs.length ≤ (encodeFilesList fs).length := by
  intro fs
  induction fs with
  | nil => simp [encodeFilesList]
  | cons f gs ih =>
    cases gs with
    | nil =>
      have : 0 < (encodeFile f).length := by
        simp [encodeFile, objOpen, List.length_append]
      simpa [encodeFilesList] using this
    | cons g gs' =>
      simp only [encodeFilesList, List.length_append, List.length_cons] at ih ⊢
      omega

/-- The fuelled array-body parser inverts `encodeFilesList` on nonempty
lists, given fuel beyond the number of files. -/
theorem parseFilesAux_encode :
    ∀ (fs : List SourceFile) (f : SourceFile) (fuel : Nat) (rest : List Char),
      fs.length < fuel →
      parseFilesAux fuel (encodeFilesList (f :: fs) ++ ']' :: rest) = some (f :: fs, rest) := by
  intro fs
  induction fs with
  | nil =>
    intro f fuel rest h
    obtain ⟨k, rfl⟩ : ∃ k, fuel = k + 1 := ⟨fuel - 1, by omega⟩
    simp [parseFilesAux, encodeFilesList, parseFileObj_encode]
  | cons g gs ih =>
    intro f fuel rest h
    obtain ⟨k, rfl⟩ : ∃ k, fuel = k + 1 := ⟨fuel - 1, by omega⟩
    have hk : gs.length < k := by simpa using Nat.lt_of_succ_lt_succ h
    simp only [encodeFilesList, List.cons_append, List.append_assoc]
    rw [show encodeFile f ++ (',' :: (encodeFilesList (g :: gs) ++ ']' :: rest)) =
      encodeFile f ++ ',' :: (encodeFilesList (g :: gs) ++ ']' :: rest) from rfl]
    simp [parseFilesAux, parseFileObj_encode, ih g k rest hk]

/-- The top-level parser inverts `encodeFiles`. -/
theorem parseFilesTop_encode (fs : List SourceFile) :
    parseFilesTop (encodeFiles fs) = some fs := by
  cases fs with
  | nil => decide
  | cons f gs =>
    have hhead : ∃ t2, encodeFilesList (f :: gs) = lbrace :: t2 := by
      cases gs
      · exact ⟨_, rfl⟩
      · exact ⟨_, rfl⟩
    obtain ⟨t2, ht⟩ := hhead
    show parseFilesTopList ('[' :: (encodeFilesList (f :: gs) ++ [']'])) = some (f :: gs)
    have hne : ¬ (encodeFilesList (f :: gs) ++ [']'] = [']']) := by
      rw [ht]
      intro hcontra
      have := congrArg List.length hcontra
      simp at this
    have hfuel : gs.length < (encodeFilesList (f :: gs) ++ [']']).length + 1 := by
      have := length_le_encodeFilesList (f :: gs)
      simp only [List.length_append, List.length_cons] at this ⊢
      omega
    have haux := parseFilesAux_encode gs f
      ((encodeFilesList (f :: gs) ++ [']']).length + 1) [] hfuel
    simp only [parseFilesTopList, if_pos rfl, if_neg hne]
    rw [show encodeFilesList (f :: gs) ++ [']'] = encodeFilesList (f :: gs) ++ ']' :: [] from rfl]
    rw [haux]
    rfl

/-- `parseDecAux` distributes over append via `Option.bind`. -/
theorem parseDecAux_append (xs ys : List Char) (acc : Nat) :
    parseDecAux (xs ++ ys) acc = (parseDecAux xs acc).bind (fun a => parseDecAux ys a) := by
  induction xs generalizing acc with
  | nil => rfl
  | cons c xs ih =>
    simp only [List.cons_append, parseDecAux]
    cases digitVal c with
    | none => rfl
    | some d => simp [ih]

/-- Parsing the decimal numeral of `n` on top of an accumulator. -/
theorem parseDecAux_toDecimal : ∀ (n : Nat), ∀ acc : Nat,
    parseDecAux (toDecimal n) acc = some (acc * 10 ^ (toDecimal n).length + n) := by
  intro n
  induction n using Nat.strong_induction_on with
  | _ n ih =>
    intro acc
    by_cases h : n < 10
    · rw [toDecimal, dif_pos h]
      simp [parseDecAux, digitVal_digitCharOf n h]
    · rw [toDecimal, dif_neg h]
      rw [parseDecAux_append]
      rw [ih (n / 10) (Nat.div_lt_self (by omega) (by omega)) acc]
      rw [Option.some_bind]
      simp only [parseDecAux, digitVal_digitCharOf (n % 10) (Nat.mod_lt _ (by omega)),
        Option.some_bind]
      simp only [List.length_append, List.length_cons, List.length_nil, pow_succ]
      have hdm : n / 10 * 10 + n % 10 = n := by omega
      generalize 10 ^ (toDecimal (n / 10)).length = k
      congr 1
      ring_nf
      omega

/-- Decimal numerals are never empty. -/
theorem toDecimal_ne_nil (n : Nat) : toDecimal n ≠ [] := by
  rw [toDecimal]
  by_cases h : n < 10 <;> simp [h]

/-- The JS `Number` model inverts the decimal rendering. -/
theorem parseDec_toDecimal (n : Nat) : parseDec (String.mk (toDecimal n)) = n := by
  show parseDecList (toDecimal n) = n
  cases hd : toDecimal n with
  | nil => exact absurd hd (toDecimal_ne_nil n)
  | cons c cs =>
    have hp := parseDecAux_toDecimal n 0
    rw [hd] at hp
    simp only [parseDecList, hp]
    simp

/-- Claim C4: saving a FileSet together with its active index to the two
localStorage keys and restoring through the useState initializers yields the
original FileSet and active index: `load(save(fileSet)) = fileSet`, for every
file list and every active index (arbitrary names, kinds and contents,
including characters that `JSON.stringify` must escape). -/
theorem c4_save_load_roundtrip (files : List SourceFile) (active : Nat) :
    loadFilesFromStorage (saveState files active) = files ∧
    loadActiveFromStorage (saveState files active) = active := by
  constructor
  · have hne : encodeFiles files ≠ "" := by
      intro h
      have hd : '[' :: (encodeFilesList files ++ [']']) = [] := congrArg String.data h
      exact absurd hd (by simp)
    simp [saveState, loadFilesFromStorage, hne, parseFilesTop_encode]
  · have hne : String.mk (toDecimal active) ≠ "" := by
      intro h
      exact absurd (congrArg String.data h) (toDecimal_ne_nil active)
    simp [saveState, loadActiveFromStorage, hne, parseDec_toDecimal]

end VibeApp
